import Mathlib

/-!
Verification of the DNA-AI variant-matching engine: a shallow embedding of
the reference loader, the genotype loader and the matching engine
(analyzer, display ordering and filters), together with theorems settling
the specification claims about them.

Tables are embedded as lists of records; vectorized pandas operations
become explicit maps, filters and joins with the same semantics.  Python
string operations (upper, strip, substring containment) are embedded as
executable functions over the character list of a string.
-/

namespace DnaAI

/-- Python str.upper restricted to ASCII letters (the data here is ASCII). -/
def pyUpper (s : String) : String := ⟨s.data.map Char.toUpper⟩

/-- Strip whitespace from the front and the back of a character list. -/
def stripChars (l : List Char) : List Char :=
  ((l.dropWhile Char.isWhitespace).reverse.dropWhile Char.isWhitespace).reverse

/-- Python str.strip: remove leading and trailing whitespace. -/
def pyStrip (s : String) : String := ⟨stripChars s.data⟩

/-- Whether the first list is a prefix of the second, as a boolean. -/
def isPrefixList : List Char → List Char → Bool
  | [], _ => true
  | _ :: _, [] => false
  | a :: as, b :: bs => a = b && isPrefixList as bs

/-- Whether the first list occurs as a contiguous sublist of the second. -/
def containsSub (needle : List Char) : List Char → Bool
  | [] => isPrefixList needle []
  | b :: bs => isPrefixList needle (b :: bs) || containsSub needle bs

/-- Python substring containment: needle in hay. -/
def strContains (hay needle : String) : Bool := containsSub needle.data hay.data

/-- Case-insensitive substring containment (pandas str.contains with case=False). -/
def containsCI (hay needle : String) : Bool := strContains (pyUpper hay) (pyUpper needle)

/-- The four nucleotide bases accepted by the risk-allele fallback regex. -/
def basesACGT : List Char := ['A', 'C', 'G', 'T']

/-- Embedding of re.search applied to the regex pattern of a greater-than sign
followed by a captured base in A/C/G/T, returning the first captured base:
the fallback scan of analyzer.py line 42. -/
def findRiskInName : List Char → Option Char
  | [] => none
  | [_] => none
  | a :: b :: rest =>
    if a = '>' ∧ b ∈ basesACGT then some b
    else findRiskInName (b :: rest)

/-- The four self-complementary substitution patterns of detect_ambiguity. -/
def pairPal (a b : Char) : Bool :=
  (a = 'A' && b = 'T') || (a = 'T' && b = 'A') || (a = 'C' && b = 'G') || (a = 'G' && b = 'C')

/-- Embedding of re.search applied to the detect_ambiguity regex: a digit
immediately followed by one of A>T, T>A, C>G, G>C (analyzer.py line 11). -/
def palindromeAfterDigit : List Char → Bool
  | d :: a :: g :: b :: rest =>
    (d.isDigit && (g = '>') && pairPal a b) || palindromeAfterDigit (a :: g :: b :: rest)
  | _ => false

/-- Replace every case-insensitive occurrence of the three letters c, h, r
by nothing (pandas str.replace of the chromosome columns). -/
def stripChrAux : List Char → List Char
  | c1 :: c2 :: c3 :: rest =>
    if c1.toLower = 'c' ∧ c2.toLower = 'h' ∧ c3.toLower = 'r' then stripChrAux rest
    else c1 :: stripChrAux (c2 :: c3 :: rest)
  | l => l

/-- One row of the canonical personal-genotype table produced by load_dna_file. -/
structure UserRow where
  rsid : String
  chrom : String
  pos : Int
  genotype : String
  deriving DecidableEq

/-- One row of the canonical clinical-variant table produced by load_clinvar. -/
structure ClinvarRow where
  geneSymbol : String
  name : String
  clinicalSignificance : String
  phenotypeList : String
  assembly : String
  chromosome : String
  start : Int
  referenceAllele : String
  alternateAllele : String
  deriving DecidableEq

/-- One row of the positional inner join of the two tables. -/
structure MergedRow extends UserRow, ClinvarRow
  deriving DecidableEq

/-- A materialized MatchResult row before the ambiguity and sort-rank columns. -/
structure ResultRow extends MergedRow where
  matchStatus : String
  derivedRiskAllele : String
  zygosity : String
  deriving DecidableEq

/-- A MatchResult row with the IsAmbiguous and SortOrder columns added. -/
structure FinalRow extends ResultRow where
  isAmbiguous : Bool
  sortOrder : Nat
  deriving DecidableEq

/-- The genotype values treated as no-calls by analyze_matches (line 50). -/
def noCallSentinels : List String := ["--", "NAN", ""]

/-- The missing-value sentinels of the risk-allele resolution (line 41). -/
def riskSentinels : List String := ["NAN", "NA", "-", ".", "NONE"]

/-- Risk-allele resolution of analyze_matches lines 40 to 44: strip and
uppercase the alternate allele; on a missing-value sentinel fall back to the
first base captured by the name scan, keeping the sentinel when none is found. -/
def resolveRiskAllele (alt nm : String) : String :=
  if pyUpper (pyStrip alt) ∈ riskSentinels then
    match findRiskInName nm.data with
    | some c => String.mk [c]
    | none => pyUpper (pyStrip alt)
  else pyUpper (pyStrip alt)

/-- The literal ConfirmedRisk status string of analyzer.py line 53. -/
def confirmedStatus : String := "🔴 Confirmed Risk"

/-- The literal PositionMismatch status string of analyzer.py line 63. -/
def mismatchStatus : String := "🔸 Position Match (Allele Mismatch)"

/-- The character-level case analysis of the zygosity logic: a genotype of
exactly two characters compares each one-character slice with the risk
allele string; any other length is hemizygous or other. -/
def zygosityChars (l : List Char) (risk : String) : String :=
  match l with
  | [a, b] =>
    if String.mk [a] = risk ∧ String.mk [b] = risk then "Homozygous (2 Copies) ⚠️"
    else "Heterozygous (1 Copy / Carrier)"
  | _ => "Hemizygous/Other"

/-- Zygosity logic of analyzer.py lines 55 to 61, reached only on a
confirmed match. -/
def zygosityOf (gt risk : String) : String := zygosityChars gt.data risk

/-- Classification of one joined row, analyzer.py lines 37 to 70: no-call
genotypes are never materialized; otherwise the match status is decided by
substring containment of the resolved risk allele in the genotype. -/
def classifyRow (m : MergedRow) : Option ResultRow :=
  if m.genotype ∈ noCallSentinels then none
  else if strContains m.genotype (resolveRiskAllele m.alternateAllele m.name) then
    some { toMergedRow := m, matchStatus := confirmedStatus,
           derivedRiskAllele := resolveRiskAllele m.alternateAllele m.name,
           zygosity := zygosityOf m.genotype (resolveRiskAllele m.alternateAllele m.name) }
  else
    some { toMergedRow := m, matchStatus := mismatchStatus,
           derivedRiskAllele := resolveRiskAllele m.alternateAllele m.name,
           zygosity := "Unknown" }

/-- The positional inner join of analyze_matches lines 27 to 31: one merged
row per pair with equal chromosome and position, in left-table order. -/
def mergedRows (users : List UserRow) (refs : List ClinvarRow) : List MergedRow :=
  users.flatMap fun u =>
    refs.filterMap fun c =>
      if u.chrom = c.chromosome ∧ u.pos = c.start then
        some { toUserRow := u, toClinvarRow := c }
      else none

/-- Strand-flip detection of analyzer.py lines 4 to 18: a digit-anchored
palindromic pattern in the uppercased name, or the pair of the reference
allele and the derived risk allele forming the set A,T or the set C,G. -/
def detect_ambiguity (nm ref riskAllele : String) : Bool :=
  let hasPalindromeName := palindromeAfterDigit (pyUpper nm).data
  let isPalindromeCols :=
    decide (({ref, riskAllele} : Finset String) = {"A", "T"}) ||
    decide (({ref, riskAllele} : Finset String) = {"C", "G"})
  hasPalindromeName || isPalindromeCols

/-- The IsAmbiguous and SortOrder columns added in analyze_matches lines 76 to 78. -/
def annotateRow (r : ResultRow) : FinalRow :=
  { toResultRow := r,
    isAmbiguous := detect_ambiguity r.name r.referenceAllele r.derivedRiskAllele,
    sortOrder := if strContains r.matchStatus "Confirmed" then 0 else 1 }

/-- The matching engine, analyze_matches: empty input on either side gives an
empty result; otherwise join, classify each joined row, and annotate. -/
def analyzeMatches (users : List UserRow) (refs : List ClinvarRow) : List FinalRow :=
  if users.isEmpty || refs.isEmpty then []
  else ((mergedRows users refs).filterMap classifyRow).map annotateRow

/-- Chromosome cleaning of load_clinvar line 36: delete every
case-insensitive occurrence of the letters c, h, r, then strip whitespace. -/
def cleanClinvarChrom (r : ClinvarRow) : ClinvarRow :=
  { r with chromosome := pyStrip ⟨stripChrAux r.chromosome.data⟩ }

/-- The filtering and cleaning stage of load_clinvar, lines 27 to 37: keep
rows whose assembly contains GRCh37, then rows whose clinical significance
contains Pathogenic case-insensitively, then clean the chromosome column. -/
def load_clinvar_filter (rows : List ClinvarRow) : List ClinvarRow :=
  (((rows.filter fun r => strContains r.assembly "GRCh37").filter
      fun r => containsCI r.clinicalSignificance "Pathogenic").map cleanClinvarChrom)

/-- The strict display filter of main.py line 76: drop rows whose clinical
significance contains Conflicting case-insensitively. -/
def strictFilter (l : List FinalRow) : List FinalRow :=
  l.filter fun r => !(containsCI r.clinicalSignificance "Conflicting")

/-- The sort key of the display sort, main.py line 83: SortOrder then GeneSymbol. -/
def resultKey (x : FinalRow) : Nat × String := (x.sortOrder, x.geneSymbol)

/-- Lexicographic order on (SortOrder, GeneSymbol) keys, the comparison the
pandas stable multi-column sort realizes. -/
def keyLe (k₁ k₂ : Nat × String) : Prop :=
  k₁.1 < k₂.1 ∨ (k₁.1 = k₂.1 ∧ k₁.2 ≤ k₂.2)

instance : DecidableRel keyLe := fun k₁ k₂ => by
  unfold keyLe; infer_instance

/-- Row comparison used by the display sort. -/
def resLe (a b : FinalRow) : Prop := keyLe (resultKey a) (resultKey b)

instance : DecidableRel resLe := fun a b => by
  unfold resLe; infer_instance

instance : IsTotal FinalRow resLe where
  total a b := by
    unfold resLe keyLe
    rcases Nat.lt_trichotomy (resultKey a).1 (resultKey b).1 with h | h | h
    · exact Or.inl (Or.inl h)
    · rcases le_total (resultKey a).2 (resultKey b).2 with h2 | h2
      · exact Or.inl (Or.inr ⟨h, h2⟩)
      · exact Or.inr (Or.inr ⟨h.symm, h2⟩)
    · exact Or.inr (Or.inl h)

instance : IsTrans FinalRow resLe where
  trans a b c hab hbc := by
    unfold resLe keyLe at *
    rcases hab with h1 | ⟨e1, l1⟩
    · rcases hbc with h2 | ⟨e2, _⟩
      · exact Or.inl (h1.trans h2)
      · exact Or.inl (e2 ▸ h1)
    · rcases hbc with h2 | ⟨e2, l2⟩
      · exact Or.inl (e1 ▸ h2)
      · exact Or.inr ⟨e1.trans e2, l1.trans l2⟩

/-- The display sort of main.py line 83: a stable sort by SortOrder then
GeneSymbol (pandas sorts on several columns with a stable lexsort). -/
def displaySort (l : List FinalRow) : List FinalRow := List.insertionSort resLe l

/-- A cell of the raw genotype table as pandas delivers it: present text or
a missing value. -/
def RawCell := Option String
  deriving DecidableEq

/-- pandas astype(str) on a cell: a missing value prints as the text nan. -/
def strOfCell (c : Option String) : String := c.getD "nan"

/-- One parsed genotype line before cleaning, after the column-count
dispatch of load_dna_file lines 54 to 66. -/
structure PreRow where
  rsid : Option String
  chrom : Option String
  posRaw : Option String
  genotype : Option String
  deriving DecidableEq

/-- Cell access in a padded raw line. -/
def cellAt (r : List (Option String)) (i : Nat) : Option String := (r.get? i).join

/-- The 4-column mapping of load_dna_file lines 61 to 62. -/
def row4 (r : List (Option String)) : PreRow :=
  { rsid := cellAt r 0, chrom := cellAt r 1, posRaw := cellAt r 2, genotype := cellAt r 3 }

/-- The 5-column mapping of load_dna_file lines 55 to 58: genotype is the
concatenation of the two allele cells with missing cells as empty strings. -/
def row5 (r : List (Option String)) : PreRow :=
  { rsid := cellAt r 0, chrom := cellAt r 1, posRaw := cellAt r 2,
    genotype := some ((cellAt r 3).getD "" ++ (cellAt r 4).getD "") }

/-- The natural number written by a list of decimal digits. -/
def digitsToNat (ds : List Char) : Nat :=
  ds.foldl (fun n c => 10 * n + (c.toNat - 48)) 0

/-- The exponent part of a numeric literal, after the e or E marker: an
optional sign followed by one or more digits. -/
def parseExp : List Char → Option Int
  | '+' :: ds =>
    if ds ≠ [] ∧ ds.all Char.isDigit then some (Int.ofNat (digitsToNat ds)) else none
  | '-' :: ds =>
    if ds ≠ [] ∧ ds.all Char.isDigit then some (-(Int.ofNat (digitsToNat ds))) else none
  | ds =>
    if ds ≠ [] ∧ ds.all Char.isDigit then some (Int.ofNat (digitsToNat ds)) else none

/-- The unsigned part of a numeric literal: integer digits, an optional
fraction and an optional exponent, with at least one mantissa digit.
Returns the mantissa digits as a natural number, the number of fraction
digits and the exponent. -/
def parseUnsigned (l : List Char) : Option (Nat × Nat × Int) :=
  match l.dropWhile Char.isDigit with
  | [] =>
    if (l.takeWhile Char.isDigit).isEmpty then none
    else some (digitsToNat (l.takeWhile Char.isDigit), 0, 0)
  | '.' :: t =>
    if (l.takeWhile Char.isDigit).isEmpty && (t.takeWhile Char.isDigit).isEmpty then none
    else
      match t.dropWhile Char.isDigit with
      | [] =>
        some (digitsToNat (l.takeWhile Char.isDigit ++ t.takeWhile Char.isDigit),
          (t.takeWhile Char.isDigit).length, 0)
      | 'e' :: te =>
        (parseExp te).map fun ex =>
          (digitsToNat (l.takeWhile Char.isDigit ++ t.takeWhile Char.isDigit),
            (t.takeWhile Char.isDigit).length, ex)
      | 'E' :: te =>
        (parseExp te).map fun ex =>
          (digitsToNat (l.takeWhile Char.isDigit ++ t.takeWhile Char.isDigit),
            (t.takeWhile Char.isDigit).length, ex)
      | _ => none
  | 'e' :: te =>
    if (l.takeWhile Char.isDigit).isEmpty then none
    else (parseExp te).map fun ex => (digitsToNat (l.takeWhile Char.isDigit), 0, ex)
  | 'E' :: te =>
    if (l.takeWhile Char.isDigit).isEmpty then none
    else (parseExp te).map fun ex => (digitsToNat (l.takeWhile Char.isDigit), 0, ex)
  | _ => none

/-- The magnitude of a parsed decimal literal truncated toward zero: the
mantissa shifted by the exponent less the fraction length, with a negative
shift realized as truncating division. -/
def truncMag : Nat × Nat × Int → Nat
  | (m, fracLen, ex) =>
    if 0 ≤ ex - Int.ofNat fracLen then m * 10 ^ (ex - Int.ofNat fracLen).toNat
    else m / 10 ^ (Int.ofNat fracLen - ex).toNat

/-- Embedding of pd.to_numeric with coercing errors followed by the
astype(int) cast, as they act on one position cell: an optionally signed
decimal literal with optional fraction and exponent (such as 100, -5, +7,
2.5, 1e3) is coerced and truncated toward zero; any other cell becomes a
missing value and its row is dropped.  The cells come from a
whitespace-delimited parse, so they never contain whitespace; float64
rounding at extreme magnitudes, infinities and int64 overflow are outside
the model. -/
def toNumeric? (s : String) : Option Int :=
  match s.data with
  | '-' :: u => (parseUnsigned u).map fun m => -(Int.ofNat (truncMag m))
  | '+' :: u => (parseUnsigned u).map fun m => Int.ofNat (truncMag m)
  | u => (parseUnsigned u).map fun m => Int.ofNat (truncMag m)

/-- The numeric sex-chromosome and mitochondrial remapping of load_dna_file
line 78, an exact whole-cell replacement. -/
def remapChrom (s : String) : String :=
  if s = "23" then "X"
  else if s = "24" then "Y"
  else if s = "25" then "MT"
  else if s = "M" then "MT"
  else s

/-- The cleaning stage of load_dna_file lines 72 to 79: coerce the position,
dropping the row when coercion fails; normalize the chromosome; uppercase
and strip the genotype. -/
def cleanRow (p : PreRow) : Option UserRow :=
  match p.posRaw.bind toNumeric? with
  | none => none
  | some n =>
    some { rsid := strOfCell p.rsid,
           chrom := remapChrom (pyStrip ⟨stripChrAux (strOfCell p.chrom).data⟩),
           pos := n,
           genotype := pyStrip (pyUpper (strOfCell p.genotype)) }

/-- The raw whitespace-delimited genotype table after pandas reading: a
column count inferred from the input and lines padded with missing cells. -/
structure RawDna where
  ncols : Nat
  rows : List (List (Option String))
  deriving DecidableEq

/-- load_dna_file, lines 43 to 81: dispatch on the column count, report a
format error (the boolean component models the st.error call surfacing the
failure) and produce no rows for an unsupported count, and otherwise clean
the mapped rows. -/
def load_dna_file (t : RawDna) : List UserRow × Bool :=
  if t.ncols = 5 then ((t.rows.map row5).filterMap cleanRow, false)
  else if t.ncols = 4 then ((t.rows.map row4).filterMap cleanRow, false)
  else ([], true)

/-! ### Characterizations of the string scans -/

theorem isPrefixList_iff (n : List Char) :
    ∀ h, isPrefixList n h = true ↔ ∃ suf, h = n ++ suf := by
  induction n with
  | nil => intro h; simp [isPrefixList]
  | cons a as ih =>
    intro h
    cases h with
    | nil => simp [isPrefixList]
    | cons b bs =>
      simp only [isPrefixList, Bool.and_eq_true, decide_eq_true_eq, ih bs,
        List.cons_append, List.cons.injEq]
      constructor
      · rintro ⟨rfl, suf, rfl⟩
        exact ⟨suf, rfl, rfl⟩
      · rintro ⟨suf, rfl, rfl⟩
        exact ⟨rfl, suf, rfl⟩

theorem containsSub_iff (n : List Char) :
    ∀ h, containsSub n h = true ↔ ∃ pre suf, h = pre ++ n ++ suf := by
  intro h
  induction h with
  | nil =>
    simp only [containsSub, isPrefixList_iff]
    constructor
    · rintro ⟨suf, hs⟩
      exact ⟨[], suf, by simpa using hs⟩
    · rintro ⟨pre, suf, hs⟩
      obtain ⟨h1, h2⟩ := List.append_eq_nil.mp ((List.append_assoc .. ▸ hs).symm)
      obtain ⟨h3, h4⟩ := List.append_eq_nil.mp h2
      exact ⟨[], by simp [h3, h4]⟩
  | cons b bs ih =>
    simp only [containsSub, Bool.or_eq_true, isPrefixList_iff, ih]
    constructor
    · rintro (⟨suf, hs⟩ | ⟨pre, suf, rfl⟩)
      · exact ⟨[], suf, by simpa using hs⟩
      · exact ⟨b :: pre, suf, by simp⟩
    · rintro ⟨pre, suf, hs⟩
      cases pre with
      | nil => exact Or.inl ⟨suf, by simpa using hs⟩
      | cons c pre2 =>
        obtain ⟨rfl, h2⟩ := List.cons.injEq .. ▸ hs
        exact Or.inr ⟨pre2, suf, h2⟩

theorem strContains_iff (hay needle : String) :
    strContains hay needle = true ↔ ∃ pre suf, hay.data = pre ++ needle.data ++ suf :=
  containsSub_iff needle.data hay.data

theorem strContains_empty_needle (s : String) : strContains s "" = true := by
  rw [strContains_iff]
  exact ⟨[], s.data, by simp⟩

/-- A greater-than sign at index i of the name, immediately followed by a
base in A/C/G/T: the occurrence the fallback regex searches for. -/
def gtAt (l : List Char) (i : Nat) (c : Char) : Prop :=
  l.get? i = some '>' ∧ l.get? (i + 1) = some c ∧ c ∈ basesACGT

theorem findRiskInName_eq_none {l : List Char} (h : findRiskInName l = none) :
    ∀ i c, ¬ gtAt l i c := by
  induction l with
  | nil => intro i c hc; simp [gtAt] at hc
  | cons a l2 ih =>
    cases l2 with
    | nil =>
      intro i c hc
      obtain ⟨h1, h2, _⟩ := hc
      cases i with
      | zero => simp [List.get?] at h2
      | succ j => simp [List.get?] at h1
    | cons b rest =>
      rw [findRiskInName] at h
      split_ifs at h with hcond
      intro i c hc
      cases i with
      | zero =>
        obtain ⟨h1, h2, h3⟩ := hc
        simp only [List.get?] at h1 h2
        injection h1 with h1e
        injection h2 with h2e
        subst h1e
        subst h2e
        exact hcond ⟨rfl, h3⟩
      | succ j =>
        obtain ⟨h1, h2, h3⟩ := hc
        exact ih h j c ⟨h1, h2, h3⟩

theorem findRiskInName_eq_some {l : List Char} {c : Char}
    (h : findRiskInName l = some c) :
    ∃ i, gtAt l i c ∧ ∀ j c2, j < i → ¬ gtAt l j c2 := by
  induction l with
  | nil => simp [findRiskInName] at h
  | cons a l2 ih =>
    cases l2 with
    | nil => simp [findRiskInName] at h
    | cons b rest =>
      rw [findRiskInName] at h
      split_ifs at h with hcond
      · have hbc : b = c := by injection h
        subst hbc
        refine ⟨0, ⟨by simp [List.get?, hcond.1], by simp [List.get?], hcond.2⟩, ?_⟩
        intro j c2 hj
        omega
      · obtain ⟨i, hi, hmin⟩ := ih h
        refine ⟨i + 1, ⟨hi.1, hi.2.1, hi.2.2⟩, ?_⟩
        intro j c2 hj hc2
        cases j with
        | zero =>
          obtain ⟨h1, h2, h3⟩ := hc2
          simp only [List.get?] at h1 h2
          injection h1 with h1e
          injection h2 with h2e
          subst h1e
          subst h2e
          exact hcond ⟨rfl, h3⟩
        | succ j2 =>
          obtain ⟨h1, h2, h3⟩ := hc2
          exact hmin j2 c2 (by omega) ⟨h1, h2, h3⟩

/-- The self-complementary pair condition of the ambiguity regex, as a
proposition on the two bases. -/
def palPattern (a b : Char) : Prop :=
  (a = 'A' ∧ b = 'T') ∨ (a = 'T' ∧ b = 'A') ∨ (a = 'C' ∧ b = 'G') ∨ (a = 'G' ∧ b = 'C')

/-- The name contains a digit immediately followed by one of the four
self-complementary substitution patterns. -/
def palPatternIn (l : List Char) : Prop :=
  ∃ pre suf d a b, l = pre ++ d :: a :: '>' :: b :: suf ∧ d.isDigit = true ∧ palPattern a b

theorem pairPal_iff (a b : Char) : pairPal a b = true ↔ palPattern a b := by
  simp only [pairPal, palPattern, Bool.or_eq_true, Bool.and_eq_true, decide_eq_true_eq]
  tauto

theorem palindromeAfterDigit_cons (c : Char) {t : List Char}
    (h : palindromeAfterDigit t = true) : palindromeAfterDigit (c :: t) = true := by
  match t with
  | [] => simp [palindromeAfterDigit] at h
  | [x] => simp [palindromeAfterDigit] at h
  | [x, y] => simp [palindromeAfterDigit] at h
  | t0 :: t1 :: t2 :: t3 :: rest =>
    show palindromeAfterDigit (c :: t0 :: t1 :: t2 :: t3 :: rest) = true
    rw [palindromeAfterDigit, h, Bool.or_true]

theorem palindromeAfterDigit_iff (l : List Char) :
    palindromeAfterDigit l = true ↔ palPatternIn l := by
  constructor
  · intro h
    induction l with
    | nil => simp [palindromeAfterDigit] at h
    | cons d t ih =>
      match t, h, ih with
      | [], h, _ => simp [palindromeAfterDigit] at h
      | [x], h, _ => simp [palindromeAfterDigit] at h
      | [x, y], h, _ => simp [palindromeAfterDigit] at h
      | a :: g :: b :: rest, h, ih =>
        rw [palindromeAfterDigit, Bool.or_eq_true] at h
        rcases h with h | h
        · simp only [Bool.and_eq_true, decide_eq_true_eq] at h
          obtain ⟨⟨hd, hg⟩, hp⟩ := h
          exact ⟨[], rest, d, a, b, by rw [hg]; rfl, hd, (pairPal_iff a b).mp hp⟩
        · obtain ⟨pre, suf, d2, a2, b2, heq, hd2, hp2⟩ := ih h
          exact ⟨d :: pre, suf, d2, a2, b2, by rw [heq]; rfl, hd2, hp2⟩
  · rintro ⟨pre, suf, d, a, b, rfl, hd, hp⟩
    induction pre with
    | nil =>
      rw [List.nil_append, palindromeAfterDigit, hd, (pairPal_iff a b).mpr hp]
      simp
    | cons c pre2 ih => exact List.cons_append .. ▸ palindromeAfterDigit_cons c ih

/-! ### Sort order and stability -/

theorem keyLe_refl (k : Nat × String) : keyLe k k := Or.inr ⟨rfl, le_refl _⟩

theorem filter_key_orderedInsert (k : Nat × String) (x : FinalRow) (l : List FinalRow) :
    (List.orderedInsert resLe x l).filter (fun y => decide (resultKey y = k)) =
      if resultKey x = k then x :: l.filter (fun y => decide (resultKey y = k))
      else l.filter (fun y => decide (resultKey y = k)) := by
  induction l with
  | nil =>
    by_cases hk : resultKey x = k <;>
      simp [List.orderedInsert, List.filter_cons, hk]
  | cons b t ih =>
    rw [List.orderedInsert]
    by_cases hle : resLe x b
    · rw [if_pos hle]
      by_cases hk : resultKey x = k <;> simp [List.filter_cons, hk]
    · rw [if_neg hle]
      by_cases hk : resultKey x = k
      · have hb : ¬ (resultKey b = k) := by
          intro hbk
          exact hle (by unfold resLe; rw [hbk, hk]; exact keyLe_refl k)
        simp [List.filter_cons, hb, hk, ih]
      · simp [List.filter_cons, ih, hk]

theorem filter_key_displaySort (k : Nat × String) (l : List FinalRow) :
    (displaySort l).filter (fun y => decide (resultKey y = k)) =
      l.filter (fun y => decide (resultKey y = k)) := by
  unfold displaySort
  induction l with
  | nil => rfl
  | cons x t ih =>
    rw [List.insertionSort, filter_key_orderedInsert k x]
    by_cases hk : resultKey x = k <;> simp [List.filter_cons, hk, ih]

/-! ### Small facts about the loaders and the pipeline -/

theorem length_filterMap_isSome {α β : Type} (f : α → Option β) (l : List α) :
    (l.filterMap f).length = (l.filter fun a => (f a).isSome).length := by
  induction l with
  | nil => rfl
  | cons a t ih =>
    cases h : f a <;> simp [List.filterMap_cons, List.filter_cons, h, ih]

theorem cleanRow_isSome (p : PreRow) :
    (cleanRow p).isSome = (p.posRaw.bind toNumeric?).isSome := by
  unfold cleanRow
  cases p.posRaw.bind toNumeric? <;> rfl

theorem cleanRow_eq {p : PreRow} {r : UserRow} (h : cleanRow p = some r) :
    ∃ n, p.posRaw.bind toNumeric? = some n ∧
      r = { rsid := strOfCell p.rsid,
            chrom := remapChrom (pyStrip ⟨stripChrAux (strOfCell p.chrom).data⟩),
            pos := n,
            genotype := pyStrip (pyUpper (strOfCell p.genotype)) } := by
  unfold cleanRow at h
  cases hm : p.posRaw.bind toNumeric? with
  | none => rw [hm] at h; exact Option.noConfusion h
  | some n => rw [hm] at h; injection h with he; exact ⟨n, rfl, he.symm⟩

theorem finsetPair_eq_iff {x y a b : String} (hab : a ≠ b) :
    (({x, y} : Finset String) = {a, b}) ↔ ((x = a ∧ y = b) ∨ (x = b ∧ y = a)) := by
  constructor
  · intro h
    have hx : x ∈ ({a, b} : Finset String) := by rw [← h]; simp
    have hy : y ∈ ({a, b} : Finset String) := by rw [← h]; simp
    have ha : a ∈ ({x, y} : Finset String) := by rw [h]; simp
    have hb : b ∈ ({x, y} : Finset String) := by rw [h]; simp
    simp only [Finset.mem_insert, Finset.mem_singleton] at hx hy ha hb
    rcases hx with hxa | hxb
    · rcases hy with hya | hyb
      · rcases hb with hbe | hbe
        · exact absurd (hbe.trans hxa).symm hab
        · exact absurd (hbe.trans hya).symm hab
      · exact Or.inl ⟨hxa, hyb⟩
    · rcases hy with hya | hyb
      · exact Or.inr ⟨hxb, hya⟩
      · rcases ha with hae | hae
        · exact absurd (hae.trans hxb) hab
        · exact absurd (hae.trans hyb) hab
  · rintro (⟨rfl, rfl⟩ | ⟨rfl, rfl⟩)
    · rfl
    · exact Finset.pair_comm x y

theorem detect_ambiguity_iff (nm ref risk : String) :
    detect_ambiguity nm ref risk = true ↔
      (palPatternIn (pyUpper nm).data ∨
        (ref = "A" ∧ risk = "T") ∨ (ref = "T" ∧ risk = "A") ∨
        (ref = "C" ∧ risk = "G") ∨ (ref = "G" ∧ risk = "C")) := by
  unfold detect_ambiguity
  simp only [Bool.or_eq_true, decide_eq_true_eq, palindromeAfterDigit_iff,
    finsetPair_eq_iff (show ("A" : String) ≠ "T" by decide),
    finsetPair_eq_iff (show ("C" : String) ≠ "G" by decide)]
  tauto

theorem mergedRows_nil_right (users : List UserRow) : mergedRows users [] = [] := by
  unfold mergedRows
  induction users with
  | nil => rfl
  | cons u t ih =>
    simp only [List.flatMap_cons, List.filterMap_nil, List.nil_append]
    exact ih

/-- Every engine output row carries the ambiguity flag and sort rank that
annotateRow computes from its own fields. -/
theorem analyzeMatches_mem {users : List UserRow} {refs : List ClinvarRow} {row : FinalRow}
    (h : row ∈ analyzeMatches users refs) :
    row.isAmbiguous = detect_ambiguity row.name row.referenceAllele row.derivedRiskAllele ∧
    row.sortOrder = (if strContains row.matchStatus "Confirmed" then 0 else 1) := by
  unfold analyzeMatches at h
  split_ifs at h with he
  · exact absurd h (List.not_mem_nil row)
  · obtain ⟨r0, _, rfl⟩ := List.mem_map.mp h
    exact ⟨rfl, rfl⟩

/-! ### Concrete example rows used by the witnesses -/

/-- A heterozygous genotype call at chromosome 1, position 100. -/
def uA : UserRow := ⟨"rs1001", "1", 100, "AG"⟩

/-- A pathogenic reference variant at the same position with alternate allele G. -/
def cA : ClinvarRow :=
  ⟨"BRCA1", "NM_007294.4(BRCA1):c.123A>G", "Pathogenic", "Breast-ovarian cancer",
    "GRCh37", "1", 100, "A", "G"⟩

/-- The joined row of uA and cA. -/
def mA : MergedRow := ⟨uA, cA⟩

/-- The materialized result of classifying mA. -/
def resA : ResultRow := ⟨mA, confirmedStatus, "G", "Heterozygous (1 Copy / Carrier)"⟩

/-- A homozygous genotype call. -/
def uB : UserRow := ⟨"rs2002", "2", 200, "GG"⟩

/-- A pathogenic reference variant matching uB with alternate allele G. -/
def cB : ClinvarRow :=
  ⟨"MUTYH", "NM_001128425.2(MUTYH):c.536A>G", "Pathogenic", "Polyposis",
    "GRCh37", "2", 200, "A", "G"⟩

/-- The joined row of uB and cB. -/
def mB : MergedRow := ⟨uB, cB⟩

/-- The materialized result of classifying mB. -/
def resB : ResultRow := ⟨mB, confirmedStatus, "G", "Homozygous (2 Copies) ⚠️"⟩

/-- A joined row whose alternate allele strips to the empty string. -/
def mC : MergedRow := ⟨⟨"rs3003", "3", 300, "TT"⟩,
  ⟨"GENE3", "no allele change spelled here", "Pathogenic", "Condition",
    "GRCh37", "3", 300, "C", " "⟩⟩

/-! ### The claims -/

/-- C1: for every joined row, a MatchResult is materialized if and only if
the genotype is not empty, not the no-call sentinel and not the
missing-value token; a materialized row has ConfirmedRisk status exactly
when the resolved risk allele occurs as a substring of the genotype string,
and PositionMismatch status otherwise; consequently the engine materializes
exactly the non-no-call joined rows. -/
theorem claim1_materialization :
    (∀ m : MergedRow,
      ((classifyRow m).isSome ↔ m.genotype ∉ noCallSentinels) ∧
      (∀ res, classifyRow m = some res →
        ((res.matchStatus = confirmedStatus ↔
            ∃ pre suf, m.genotype.data = pre ++ res.derivedRiskAllele.data ++ suf) ∧
          (res.matchStatus = confirmedStatus ∨ res.matchStatus = mismatchStatus)))) ∧
    (∀ users refs, (analyzeMatches users refs).length =
      ((mergedRows users refs).filter fun m => !decide (m.genotype ∈ noCallSentinels)).length) := by
  constructor
  · intro m
    unfold classifyRow
    by_cases hg : m.genotype ∈ noCallSentinels
    · rw [if_pos hg]
      refine ⟨by simp [hg], ?_⟩
      intro res hres
      exact Option.noConfusion hres
    · rw [if_neg hg]
      by_cases hc : strContains m.genotype (resolveRiskAllele m.alternateAllele m.name)
      · rw [if_pos hc]
        refine ⟨by simp [hg], ?_⟩
        intro res hres
        injection hres with he
        subst he
        refine ⟨⟨fun _ => (strContains_iff ..).mp hc, fun _ => rfl⟩, Or.inl rfl⟩
      · rw [if_neg hc]
        refine ⟨by simp [hg], ?_⟩
        intro res hres
        injection hres with he
        subst he
        refine ⟨⟨fun hst => absurd (show mismatchStatus = confirmedStatus from hst) (by decide), ?_⟩, Or.inr rfl⟩
        intro hsub
        exact absurd ((strContains_iff ..).mpr hsub) hc
  · intro users refs
    unfold analyzeMatches
    by_cases he : users.isEmpty || refs.isEmpty
    · rw [if_pos he]
      rcases Bool.or_eq_true .. |>.mp he with h | h
      · rw [List.isEmpty_iff.mp h]
        rfl
      · rw [List.isEmpty_iff.mp h, mergedRows_nil_right]
        rfl
    · rw [if_neg he, List.length_map, length_filterMap_isSome]
      congr 1
      apply List.filter_congr
      intro m _
      unfold classifyRow
      by_cases hg : m.genotype ∈ noCallSentinels
      · simp [hg]
      · by_cases hc : strContains m.genotype (resolveRiskAllele m.alternateAllele m.name) <;>
          simp [hg, hc]

/-- Witness for C1 at the concrete joined row mA: the genotype AG is not a
no-call, the row is materialized, and its ConfirmedRisk status comes with
the substring decomposition of the genotype around the risk allele G. -/
theorem claim1_witness :
    mA.genotype ∉ noCallSentinels ∧ (classifyRow mA).isSome ∧
    (∃ pre suf, mA.genotype.data = pre ++ resA.derivedRiskAllele.data ++ suf) :=
  ⟨by decide,
    ((claim1_materialization.1 mA).1.mpr (by decide)),
    (((claim1_materialization.1 mA).2 resA (by decide)).1.mp (by decide))⟩

/-- C3: on a materialized row with ConfirmedRisk status, a two-character
genotype whose characters both equal the risk allele is Homozygous, a
two-character genotype with exactly one matching character is Heterozygous,
and a genotype whose length is not two is HemizygousOrOther; on a row whose
status is not ConfirmedRisk the zygosity is Unknown. -/
theorem claim3_zygosity (m : MergedRow) (res : ResultRow) (h : classifyRow m = some res) :
    (res.matchStatus = confirmedStatus →
      (∀ a b, m.genotype.data = [a, b] →
        ((String.mk [a] = res.derivedRiskAllele ∧ String.mk [b] = res.derivedRiskAllele) →
            res.zygosity = "Homozygous (2 Copies) ⚠️") ∧
        (((String.mk [a] = res.derivedRiskAllele ∧ String.mk [b] ≠ res.derivedRiskAllele) ∨
            (String.mk [a] ≠ res.derivedRiskAllele ∧ String.mk [b] = res.derivedRiskAllele)) →
            res.zygosity = "Heterozygous (1 Copy / Carrier)")) ∧
      (m.genotype.data.length ≠ 2 → res.zygosity = "Hemizygous/Other")) ∧
    (res.matchStatus ≠ confirmedStatus → res.zygosity = "Unknown") := by
  unfold classifyRow at h
  by_cases hg : m.genotype ∈ noCallSentinels
  · rw [if_pos hg] at h
    exact Option.noConfusion h
  · rw [if_neg hg] at h
    by_cases hc : strContains m.genotype (resolveRiskAllele m.alternateAllele m.name)
    · rw [if_pos hc] at h
      injection h with he
      subst he
      constructor
      · intro _
        constructor
        · intro a b hab
          constructor
          · intro hob
            show zygosityOf m.genotype (resolveRiskAllele m.alternateAllele m.name) = _
            unfold zygosityOf
            rw [hab]
            exact if_pos hob
          · intro hone
            show zygosityOf m.genotype (resolveRiskAllele m.alternateAllele m.name) = _
            unfold zygosityOf
            rw [hab]
            refine if_neg ?_
            rcases hone with ⟨h1, h2⟩ | ⟨h1, h2⟩
            · exact fun hb => h2 hb.2
            · exact fun hb => h1 hb.1
        · intro hlen
          show zygosityOf m.genotype (resolveRiskAllele m.alternateAllele m.name) = _
          unfold zygosityOf
          cases hd : m.genotype.data with
          | nil => rfl
          | cons x t =>
            cases t with
            | nil => rfl
            | cons y t2 =>
              cases t2 with
              | nil =>
                rw [hd] at hlen
                simp at hlen
              | cons z t3 => rfl
      · intro hne
        exact absurd rfl hne
    · rw [if_neg hc] at h
      injection h with he
      subst he
      exact ⟨fun hst => absurd (show mismatchStatus = confirmedStatus from hst) (by decide),
        fun _ => rfl⟩

/-- Witness for C3 at the homozygous row mB and, through the same theorem
application, the Unknown clause is vacuous there. -/
theorem claim3_witness : resB.zygosity = "Homozygous (2 Copies) ⚠️" :=
  (((claim3_zygosity mB resB (by decide)).1 (by decide)).1 'G' 'G' (by decide)).1
    ⟨by decide, by decide⟩

/-- C6: an empty genotype table or an empty reference table makes the
matching engine return the empty result table; the embedded engine is a
total function, so no error is raised. -/
theorem claim6_empty_inputs :
    (∀ refs, analyzeMatches [] refs = []) ∧ (∀ users, analyzeMatches users [] = []) := by
  constructor
  · intro refs
    rfl
  · intro users
    simp [analyzeMatches]

/-- C10: when the alternate allele uppercases and strips to the empty
string, no sentinel fallback fires, the resolved risk allele is the empty
string, and every materialized row for that record is ConfirmedRisk because
the empty string is a substring of every genotype. -/
theorem claim10_empty_risk (m : MergedRow)
    (halt : pyUpper (pyStrip m.alternateAllele) = "")
    (hgt : m.genotype ∉ noCallSentinels) :
    resolveRiskAllele m.alternateAllele m.name = "" ∧
    ∃ res, classifyRow m = some res ∧ res.matchStatus = confirmedStatus := by
  have hres : resolveRiskAllele m.alternateAllele m.name = "" := by
    unfold resolveRiskAllele
    rw [halt, if_neg (by decide : ¬("" : String) ∈ riskSentinels)]
  refine ⟨hres, ?_⟩
  unfold classifyRow
  rw [if_neg hgt, hres, if_pos (strContains_empty_needle m.genotype)]
  exact ⟨_, rfl, rfl⟩

/-- Witness for C10 at the concrete joined row mC, whose alternate allele
is a single space. -/
theorem claim10_witness :
    pyUpper (pyStrip mC.alternateAllele) = "" ∧ mC.genotype ∉ noCallSentinels ∧
    (resolveRiskAllele mC.alternateAllele mC.name = "" ∧
      ∃ res, classifyRow mC = some res ∧ res.matchStatus = confirmedStatus) :=
  ⟨by decide, by decide, claim10_empty_risk mC (by decide) (by decide)⟩

/-- The fallback scan as the specification words it: the second base of the
first base-greater-than-base pattern whose two bases are both in A/C/G/T.
Stated only for comparison with the source's resolveRiskAllele, whose regex
leaves the character before the greater-than sign unconstrained. -/
def specRiskFallback : List Char → Option Char
  | a :: b :: c :: rest =>
    if a ∈ basesACGT ∧ b = '>' ∧ c ∈ basesACGT then some c
    else specRiskFallback (b :: c :: rest)
  | _ => none

/-- C2 counterexample: with the sentinel alternate allele NA and the name
containing N-greater-than-T before A-greater-than-G, the code resolves the
risk allele to T, while the claim's first-pattern-with-both-bases rule
prescribes G. -/
theorem claim2_counterexample :
    resolveRiskAllele "NA" "N>T A>G" = "T" ∧
    specRiskFallback ("N>T A>G").data = some 'G' ∧
    ("T" : String) ≠ "G" :=
  ⟨by decide, by decide, by decide⟩

/-- C2 (amended): the derived risk allele equals the uppercased trimmed
alternate allele; if that value is a missing-value sentinel, it instead
equals the base of the earliest occurrence of a greater-than sign
immediately followed by a base in A/C/G/T in the name (the character before
the sign is unconstrained), the sentinel being kept when no such occurrence
exists; in particular NA with name c.123A-greater-than-G resolves to G. -/
theorem claim2_amended_risk_resolution (alt nm : String) :
    (pyUpper (pyStrip alt) ∉ riskSentinels →
      resolveRiskAllele alt nm = pyUpper (pyStrip alt)) ∧
    (pyUpper (pyStrip alt) ∈ riskSentinels →
      (∀ c, findRiskInName nm.data = some c →
        resolveRiskAllele alt nm = String.mk [c] ∧
        ∃ i, gtAt nm.data i c ∧ ∀ j c2, j < i → ¬ gtAt nm.data j c2) ∧
      (findRiskInName nm.data = none →
        (∀ i c, ¬ gtAt nm.data i c) ∧
        resolveRiskAllele alt nm = pyUpper (pyStrip alt))) ∧
    resolveRiskAllele "NA" "c.123A>G" = "G" := by
  refine ⟨?_, ?_, by decide⟩
  · intro hs
    unfold resolveRiskAllele
    rw [if_neg hs]
  · intro hs
    constructor
    · intro c hc
      refine ⟨?_, findRiskInName_eq_some hc⟩
      unfold resolveRiskAllele
      rw [if_pos hs, hc]
    · intro hn
      refine ⟨findRiskInName_eq_none hn, ?_⟩
      unfold resolveRiskAllele
      rw [if_pos hs, hn]

/-- Witness for C2 (amended) at the sentinel NA and the spec's example name. -/
theorem claim2_witness :
    (pyUpper (pyStrip "NA") ∈ riskSentinels) ∧
    (resolveRiskAllele "NA" "c.123A>G" = String.mk ['G'] ∧
      ∃ i, gtAt ("c.123A>G" : String).data i 'G' ∧
        ∀ j c2, j < i → ¬ gtAt ("c.123A>G" : String).data j c2) :=
  ⟨by decide,
    ((claim2_amended_risk_resolution "NA" "c.123A>G").2.1 (by decide)).1 'G' (by decide)⟩

/-- C4: a result row is flagged ambiguous exactly when the uppercased name
contains a digit immediately followed by one of the four self-complementary
substitution patterns, or the reference allele and the derived risk allele
form the pair A,T or the pair C,G; in particular the pair A,T is flagged
and the pair A,G is not. -/
theorem claim4_ambiguity :
    (∀ users refs row, row ∈ analyzeMatches users refs →
      (row.isAmbiguous = true ↔
        (palPatternIn (pyUpper row.name).data ∨
          (row.referenceAllele = "A" ∧ row.derivedRiskAllele = "T") ∨
          (row.referenceAllele = "T" ∧ row.derivedRiskAllele = "A") ∨
          (row.referenceAllele = "C" ∧ row.derivedRiskAllele = "G") ∨
          (row.referenceAllele = "G" ∧ row.derivedRiskAllele = "C")))) ∧
    detect_ambiguity "" "A" "T" = true ∧ detect_ambiguity "" "A" "G" = false := by
  refine ⟨?_, by decide, by decide⟩
  intro users refs row h
  rw [(analyzeMatches_mem h).1]
  exact detect_ambiguity_iff row.name row.referenceAllele row.derivedRiskAllele

/-- A homozygous call joined against a reference row whose alleles form the
self-complementary pair A,T. -/
def uD : UserRow := ⟨"rs4004", "4", 400, "TT"⟩

/-- The reference row with reference allele A and alternate allele T. -/
def cD : ClinvarRow :=
  ⟨"GENE4", "a palindromic site", "Pathogenic", "Condition", "GRCh37", "4", 400, "A", "T"⟩

/-- The materialized result of classifying the join of uD and cD. -/
def resD : ResultRow := ⟨⟨uD, cD⟩, confirmedStatus, "T", "Homozygous (2 Copies) ⚠️"⟩

/-- Witness for C4: the annotated row of the uD-cD join sits in the engine
output and its ambiguity flag is forced by the A,T pair clause. -/
theorem claim4_witness :
    annotateRow resD ∈ analyzeMatches [uD] [cD] ∧ (annotateRow resD).isAmbiguous = true :=
  ⟨by decide,
    (claim4_ambiguity.1 [uD] [cD] (annotateRow resD) (by decide)).mpr
      (Or.inr (Or.inl (by decide)))⟩

theorem resLe_rank_le {a b : FinalRow} (h : resLe a b) : a.sortOrder ≤ b.sortOrder := by
  unfold resLe keyLe at h
  rcases h with hlt | ⟨heq, _⟩
  · exact le_of_lt hlt
  · exact le_of_eq heq

theorem resLe_gene_le {a b : FinalRow} (h : resLe a b) (heq : a.sortOrder = b.sortOrder) :
    a.geneSymbol ≤ b.geneSymbol := by
  unfold resLe keyLe at h
  rcases h with hlt | ⟨_, hle⟩
  · exact absurd heq (Nat.ne_of_lt hlt)
  · exact hle

/-- C5: the display sort orders rows by ascending sort rank, orders rows of
equal rank by ascending gene symbol, is stable on rows with equal rank and
gene symbol (their engine-output order, which is the join order, is kept),
and in the sorted engine output every ConfirmedRisk row precedes every
non-confirmed row. -/
theorem claim5_ordering :
    (∀ l : List FinalRow,
      List.Pairwise (fun a b => a.sortOrder ≤ b.sortOrder) (displaySort l) ∧
      List.Pairwise (fun a b => a.sortOrder = b.sortOrder → a.geneSymbol ≤ b.geneSymbol)
        (displaySort l) ∧
      (∀ k : Nat × String,
        (displaySort l).filter (fun y => decide (resultKey y = k)) =
          l.filter (fun y => decide (resultKey y = k)))) ∧
    (∀ users refs,
      List.Pairwise
        (fun a b => strContains b.matchStatus "Confirmed" = true →
          strContains a.matchStatus "Confirmed" = true)
        (displaySort (analyzeMatches users refs))) := by
  have hsorted : ∀ l : List FinalRow, List.Pairwise resLe (displaySort l) :=
    fun l => List.sorted_insertionSort resLe l
  constructor
  · intro l
    refine ⟨(hsorted l).imp (fun hab => resLe_rank_le hab),
      (hsorted l).imp (fun hab => resLe_gene_le hab),
      fun k => filter_key_displaySort k l⟩
  · intro users refs
    refine List.Pairwise.imp_of_mem ?_ (hsorted (analyzeMatches users refs))
    intro a b ha hb hab hcb
    have ha2 := (analyzeMatches_mem ((List.mem_insertionSort resLe).mp ha)).2
    have hb2 := (analyzeMatches_mem ((List.mem_insertionSort resLe).mp hb)).2
    rw [hcb] at hb2
    simp at hb2
    have hle : a.sortOrder ≤ b.sortOrder := resLe_rank_le hab
    rw [hb2] at hle
    by_cases hca : strContains a.matchStatus "Confirmed" = true
    · exact hca
    · rw [Bool.not_eq_true] at hca
      rw [hca] at ha2
      simp at ha2
      rw [ha2] at hle
      exact absurd hle (by omega)

/-- Witness for C5: the stability clause applied to a concrete two-row list
at the key of rank zero and gene BRCA1. -/
theorem claim5_witness :
    (displaySort [annotateRow resD, annotateRow resA]).filter
        (fun y => decide (resultKey y = (0, "BRCA1"))) =
      [annotateRow resD, annotateRow resA].filter
        (fun y => decide (resultKey y = (0, "BRCA1"))) :=
  (claim5_ordering.1 [annotateRow resD, annotateRow resA]).2.2 (0, "BRCA1")

/-- C7: every record retained by the reference loader has an assembly field
containing GRCh37 and a clinical significance containing Pathogenic
case-insensitively; Likely pathogenic and Conflicting interpretations of
pathogenicity records with a matching assembly are retained by the loader,
and only the downstream strict display filter excludes Conflicting rows. -/
theorem claim7_loader_invariant (rows : List ClinvarRow) :
    (∀ r ∈ load_clinvar_filter rows,
      strContains r.assembly "GRCh37" = true ∧
      containsCI r.clinicalSignificance "Pathogenic" = true) ∧
    (∀ rec ∈ rows, strContains rec.assembly "GRCh37" = true →
      (rec.clinicalSignificance = "Likely pathogenic" ∨
        rec.clinicalSignificance = "Conflicting interpretations of pathogenicity") →
      cleanClinvarChrom rec ∈ load_clinvar_filter rows) ∧
    (∀ l : List FinalRow, ∀ r ∈ strictFilter l,
      containsCI r.clinicalSignificance "Conflicting" = false) := by
  refine ⟨?_, ?_, ?_⟩
  · intro r hr
    unfold load_clinvar_filter at hr
    obtain ⟨r0, hr0, rfl⟩ := List.mem_map.mp hr
    obtain ⟨hr1, hsig⟩ := List.mem_filter.mp hr0
    obtain ⟨_, hasm⟩ := List.mem_filter.mp hr1
    exact ⟨hasm, hsig⟩
  · intro rec hrec hasm hsig
    unfold load_clinvar_filter
    refine List.mem_map.mpr ⟨rec, ?_, rfl⟩
    refine List.mem_filter.mpr ⟨List.mem_filter.mpr ⟨hrec, hasm⟩, ?_⟩
    rcases hsig with h | h <;> rw [h] <;> decide
  · intro l r hr
    obtain ⟨_, hcond⟩ := List.mem_filter.mp hr
    simpa using hcond

/-- A Likely pathogenic reference record on the supported build. -/
def cL : ClinvarRow :=
  ⟨"GENE7", "NM_000000.1:c.1A>C", "Likely pathogenic", "Condition",
    "GRCh37/hg19", "chr7", 700, "A", "C"⟩

/-- Witness for C7: the Likely pathogenic record cL passes both loader
filters and is retained. -/
theorem claim7_witness :
    (cL ∈ [cL]) ∧ strContains cL.assembly "GRCh37" = true ∧
    cleanClinvarChrom cL ∈ load_clinvar_filter [cL] :=
  ⟨by decide, by decide,
    (claim7_loader_invariant [cL]).2.1 cL (by decide) (by decide) (Or.inl rfl)⟩

/-- A 4-column raw genotype table whose single line has a negative position. -/
def rawNeg : RawDna := ⟨4, [[some "rs1", some "1", some "-5", some "AA"]]⟩

/-- C8 counterexample: the cleaning step keeps a row whose position column
reads -5, so the retained table carries a negative position with no error
reported, against the claimed non-negativity invariant. -/
theorem claim8_counterexample :
    (load_dna_file rawNeg).2 = false ∧
    (∃ r ∈ (load_dna_file rawNeg).1, r.pos < 0) :=
  ⟨by decide, ⟨⟨"rs1", "1", -5, "AA"⟩, by decide, by decide⟩⟩

/-- C8 (amended): for a supported column count the load reports no error,
every retained row's position is the numeric coercion of its source cell
truncated toward zero by the integer cast (the sign is not checked, so
negative values are retained), and the number of retained rows is exactly
the number of input lines whose position cell coerces, the others being
dropped silently. -/
theorem claim8_amended_positions (t : RawDna) (h : t.ncols = 4 ∨ t.ncols = 5) :
    (load_dna_file t).2 = false ∧
    (∀ r ∈ (load_dna_file t).1, ∃ src ∈ t.rows,
      ((if t.ncols = 5 then row5 src else row4 src).posRaw.bind toNumeric?) = some r.pos) ∧
    ((load_dna_file t).1.length =
      (t.rows.filter fun src =>
        (((if t.ncols = 5 then row5 src else row4 src).posRaw.bind toNumeric?).isSome)).length) := by
  have hmain : ∀ conv : List (Option String) → PreRow,
      (∀ r ∈ (t.rows.map conv).filterMap cleanRow, ∃ src ∈ t.rows,
        ((conv src).posRaw.bind toNumeric?) = some r.pos) ∧
      (((t.rows.map conv).filterMap cleanRow).length =
        (t.rows.filter fun src => (((conv src).posRaw.bind toNumeric?).isSome)).length) := by
    intro conv
    constructor
    · intro r hr
      obtain ⟨p, hp, hclean⟩ := List.mem_filterMap.mp hr
      obtain ⟨src, hsrc, rfl⟩ := List.mem_map.mp hp
      obtain ⟨n, hn, hre⟩ := cleanRow_eq hclean
      refine ⟨src, hsrc, ?_⟩
      rw [hre]
      exact hn
    · rw [length_filterMap_isSome, List.filter_map, List.length_map]
      congr 1
      apply List.filter_congr
      intro src _
      exact cleanRow_isSome (conv src)
  rcases h with h4 | h5
  · have hne : ¬ t.ncols = 5 := by omega
    constructor
    · unfold load_dna_file
      rw [if_neg hne, if_pos h4]
    · constructor
      · intro r hr
        unfold load_dna_file at hr
        rw [if_neg hne, if_pos h4] at hr
        obtain ⟨src, hsrc, hpos⟩ := (hmain row4).1 r hr
        refine ⟨src, hsrc, ?_⟩
        rw [if_neg hne]
        exact hpos
      · unfold load_dna_file
        rw [if_neg hne, if_pos h4]
        simp only [if_neg hne]
        exact (hmain row4).2
  · constructor
    · unfold load_dna_file
      rw [if_pos h5]
    · constructor
      · intro r hr
        unfold load_dna_file at hr
        rw [if_pos h5] at hr
        obtain ⟨src, hsrc, hpos⟩ := (hmain row5).1 r hr
        refine ⟨src, hsrc, ?_⟩
        rw [if_pos h5]
        exact hpos
      · unfold load_dna_file
        rw [if_pos h5]
        simp only [if_pos h5]
        exact (hmain row5).2

/-- A 4-column raw table with one integer, one non-coercible and one
float-valued position cell. -/
def rawMix : RawDna :=
  ⟨4, [[some "rs1", some "1", some "100", some "AA"],
       [some "rs2", some "1", some "x", some "CC"],
       [some "rs3", some "1", some "2.5", some "GG"]]⟩

/-- Witness for C8 (amended) on the mixed table: no error, the float-valued
line is retained with its coercion truncated to position 2, and exactly the
two coercible lines are retained. -/
theorem claim8_witness :
    (load_dna_file rawMix).2 = false ∧
    (⟨"rs3", "1", 2, "GG"⟩ : UserRow) ∈ (load_dna_file rawMix).1 ∧
    (∃ src ∈ rawMix.rows,
      ((if rawMix.ncols = 5 then row5 src else row4 src).posRaw.bind toNumeric?) =
        some (⟨"rs3", "1", 2, "GG"⟩ : UserRow).pos) ∧
    (load_dna_file rawMix).1.length =
      (rawMix.rows.filter fun src =>
        (((if rawMix.ncols = 5 then row5 src else row4 src).posRaw.bind
            toNumeric?).isSome)).length :=
  ⟨(claim8_amended_positions rawMix (Or.inl rfl)).1,
    by decide,
    (claim8_amended_positions rawMix (Or.inl rfl)).2.1 ⟨"rs3", "1", 2, "GG"⟩ (by decide),
    (claim8_amended_positions rawMix (Or.inl rfl)).2.2⟩

/-- C9: a 4-column table maps to rsid, chromosome, position and genotype; a
5-column table maps to rsid, chromosome, position and the two allele
columns, the genotype being their concatenation with missing alleles as
empty strings; any other column count surfaces a format error and produces
no genotype table. -/
theorem claim9_column_formats (t : RawDna) :
    (t.ncols = 4 →
      (load_dna_file t).2 = false ∧
      ∀ r ∈ (load_dna_file t).1, ∃ src ∈ t.rows,
        r.rsid = strOfCell (cellAt src 0) ∧
        r.chrom = remapChrom (pyStrip ⟨stripChrAux (strOfCell (cellAt src 1)).data⟩) ∧
        (cellAt src 2).bind toNumeric? = some r.pos ∧
        r.genotype = pyStrip (pyUpper (strOfCell (cellAt src 3)))) ∧
    (t.ncols = 5 →
      (load_dna_file t).2 = false ∧
      ∀ r ∈ (load_dna_file t).1, ∃ src ∈ t.rows,
        r.rsid = strOfCell (cellAt src 0) ∧
        r.chrom = remapChrom (pyStrip ⟨stripChrAux (strOfCell (cellAt src 1)).data⟩) ∧
        (cellAt src 2).bind toNumeric? = some r.pos ∧
        r.genotype = pyStrip (pyUpper ((cellAt src 3).getD "" ++ (cellAt src 4).getD ""))) ∧
    (t.ncols ≠ 4 → t.ncols ≠ 5 → load_dna_file t = ([], true)) := by
  refine ⟨?_, ?_, ?_⟩
  · intro h4
    have hne : ¬ t.ncols = 5 := by omega
    constructor
    · unfold load_dna_file
      rw [if_neg hne, if_pos h4]
    · intro r hr
      unfold load_dna_file at hr
      rw [if_neg hne, if_pos h4] at hr
      obtain ⟨p, hp, hclean⟩ := List.mem_filterMap.mp hr
      obtain ⟨src, hsrc, rfl⟩ := List.mem_map.mp hp
      obtain ⟨n, hn, hre⟩ := cleanRow_eq hclean
      subst hre
      exact ⟨src, hsrc, rfl, rfl, hn, rfl⟩
  · intro h5
    constructor
    · unfold load_dna_file
      rw [if_pos h5]
    · intro r hr
      unfold load_dna_file at hr
      rw [if_pos h5] at hr
      obtain ⟨p, hp, hclean⟩ := List.mem_filterMap.mp hr
      obtain ⟨src, hsrc, rfl⟩ := List.mem_map.mp hp
      obtain ⟨n, hn, hre⟩ := cleanRow_eq hclean
      subst hre
      exact ⟨src, hsrc, rfl, rfl, hn, rfl⟩
  · intro h4 h5
    unfold load_dna_file
    rw [if_neg h5, if_neg h4]

/-- A 5-column raw table whose single line lacks the second allele and uses
the numeric sex-chromosome code 23. -/
def raw5 : RawDna := ⟨5, [[some "rs9", some "23", some "101", some "A", none]]⟩

/-- A 3-column raw table, an unsupported vendor format. -/
def raw0 : RawDna := ⟨3, [[some "a", some "b", some "c"]]⟩

/-- The cleaned row the 5-column example should produce: genotype is the
concatenation A of the present allele with the missing one, and chromosome
code 23 is remapped to X. -/
def r9 : UserRow := ⟨"rs9", "X", 101, "A"⟩

/-- Witness for C9: the 5-column example loads without error into exactly
the expected row, and the 3-column example is rejected with the format
error and an empty table. -/
theorem claim9_witness :
    (load_dna_file raw5).2 = false ∧
    (∃ src ∈ raw5.rows,
      r9.rsid = strOfCell (cellAt src 0) ∧
      r9.chrom = remapChrom (pyStrip ⟨stripChrAux (strOfCell (cellAt src 1)).data⟩) ∧
      (cellAt src 2).bind toNumeric? = some r9.pos ∧
      r9.genotype = pyStrip (pyUpper ((cellAt src 3).getD "" ++ (cellAt src 4).getD ""))) ∧
    load_dna_file raw0 = ([], true) :=
  ⟨((claim9_column_formats raw5).2.1 rfl).1,
    ((claim9_column_formats raw5).2.1 rfl).2 r9 (by decide),
    (claim9_column_formats raw0).2.2 (by decide) (by decide)⟩

end DnaAI
